import Mathlib

/-!
# Verification of the ZeroUni/portfolio presentation logic

Shallow embedding, in Lean 4, of the pure logic of the portfolio
application (`src/app.rs`, `src/data.rs`, `src/elements.rs`): the
responsive layout classifier and zoom normalization, the thumbnail
cache resolution, the scene-rectangle normalization, the angular
gradient painter's per-corner color computation, the hover animation
bookkeeping, the static data construction, the theme style builders and
the underlined-button builder methods.

Rust `f32` quantities are embedded as exact rationals (`ℚ`); all the
arithmetic involved (comparisons, min/max, affine maps, division by
nonzero constants) is exact on the inputs the claims are about.
Fallible operations are embedded as `Option`/`Except`.
-/

set_option autoImplicit false

namespace Portfolio

/-! ## Responsive layout classifier (`src/app.rs`, `enum ScreenSize` and
`TemplateApp::update` lines 255-278) -/

/-- `enum ScreenSize { Small = 1, Medium = 2, Large = 3 }` from `src/app.rs`. -/
inductive ScreenSize where
  | Small
  | Medium
  | Large
deriving DecidableEq, Repr

/-- `ScreenSize::to_u8` from `src/app.rs`. -/
def ScreenSize.to_u8 : ScreenSize → ℕ
  | .Small => 1
  | .Medium => 2
  | .Large => 3

/-- `ScreenSize::from_u8` from `src/app.rs`. -/
def ScreenSize.from_u8 : ℕ → Option ScreenSize
  | 1 => some .Small
  | 2 => some .Medium
  | 3 => some .Large
  | _ => none

/-- The side a `TopBottomPanel` is attached to (`egui::panel::TopBottomSide`). -/
inductive TopBottomSide where
  | Top
  | Bottom
deriving DecidableEq, Repr

/-- The size classification at the top of `TemplateApp::update`
(`src/app.rs` lines 256-262): the measured screen width is bucketed by
`if screen_width < 768.0 { Small } else if screen_width < 1028.0 { Medium }
else { Large }`. -/
def classify (screen_width : ℚ) : ScreenSize :=
  if screen_width < 768 then ScreenSize.Small
  else if screen_width < 1028 then ScreenSize.Medium
  else ScreenSize.Large

/-- The panel placement `match` in `TemplateApp::update`
(`src/app.rs` lines 274-278). -/
def panel_location : ScreenSize → TopBottomSide
  | .Small => TopBottomSide.Bottom
  | .Medium => TopBottomSide.Top
  | .Large => TopBottomSide.Top

/-- The zoom normalization step of `TemplateApp::update`
(`src/app.rs` lines 266-272), expressed on the effective screen width
`screen_width` (already the product of the measured rect width and the
current zoom factor, line 255) and the current zoom factor.  Returns the
zoom factor after the step and whether `request_repaint` was called.
`screen_size.to_u8() == 1` is the `Small` test. -/
def zoom_adjust (screen_width zoom : ℚ) : ℚ × Bool :=
  if (classify screen_width).to_u8 = 1 ∧ zoom ≠ screen_width / 768 then
    (screen_width / 768, true)
  else if (classify screen_width).to_u8 ≠ 1 then
    (1, false)
  else
    (zoom, false)

/-- One frame of the classify-and-adjust logic starting from the measured
rect width and the current zoom factor: `src/app.rs` line 255 computes
`screen_width = ctx.screen_rect().width() * ctx.zoom_factor()` and lines
266-272 adjust the zoom factor from it. -/
def zoom_step (rect_width zoom : ℚ) : ℚ × Bool :=
  zoom_adjust (rect_width * zoom) zoom

/-! ## Data model (`src/data.rs`) -/

/-- `struct Skill` from `src/data.rs`: a name and two `[u8; 3]` color
triples. -/
structure Skill where
  name : String
  rgb : ℕ × ℕ × ℕ
  text_rgb : ℕ × ℕ × ℕ
deriving DecidableEq, Repr

/-- `egui::load::TexturePoll`, the tri-state poll result consumed by
`ProjectHighlight::get_set_thumbnail`; the texture handle type is kept
abstract as `H` (`egui::load::SizedTexture` in the source). -/
inductive TexturePoll (H : Type) where
  | Pending
  | Ready (texture : H)
deriving DecidableEq, Repr

/-- `struct ProjectHighlight` from `src/data.rs`, with the texture handle
type abstract as `H`.  `thumbnail` is the `#[serde(skip)]` lazily-filled
cache field. -/
structure ProjectHighlight (H : Type) where
  slug : String
  title : String
  description : String
  tags : List Skill
  thumbnail_path : String
  external_link : String
  highlight_imgs : List String
  thumbnail : Option H
deriving DecidableEq, Repr

/-- `ProjectHighlight::get_set_thumbnail` from `src/data.rs` lines 105-130.
The `&mut self` receiver becomes explicit state passing, and the host
context's `ctx.try_load_texture` becomes the function argument `try_load`
(a `Result<TexturePoll, LoadError>` per path).  Returns the
`Option<SizedTexture>` result, the updated record, and whether a load
request was issued (`try_load_texture` called) this frame. -/
def ProjectHighlight.get_set_thumbnail {H : Type} (p : ProjectHighlight H)
    (root_url : String) (try_load : String → Except String (TexturePoll H)) :
    Option H × ProjectHighlight H × Bool :=
  match p.thumbnail with
  | some thumbnail => (some thumbnail, p, false)
  | none =>
    let thumbnail_full_path := root_url ++ p.thumbnail_path
    match try_load thumbnail_full_path with
    | Except.ok (TexturePoll.Ready texture) =>
        (some texture, { p with thumbnail := some texture }, true)
    | Except.ok TexturePoll.Pending => (none, p, true)
    | Except.error _ => (none, p, true)

/-- A project highlight with an empty thumbnail cache, used to exercise
`get_set_thumbnail` at a concrete input. -/
def sample_project : ProjectHighlight ℕ :=
  { slug := "portfolio"
    title := "Portfolio"
    description := "example"
    tags := []
    thumbnail_path := "/assets/thumb.png"
    external_link := "https://example.invalid"
    highlight_imgs := []
    thumbnail := none }

/-- A loader whose texture is still pending for every path. -/
def pending_loader : String → Except String (TexturePoll ℕ) :=
  fun _ => Except.ok TexturePoll.Pending

/-- A loader whose texture (handle `7`) is ready for every path. -/
def ready_loader : String → Except String (TexturePoll ℕ) :=
  fun _ => Except.ok (TexturePoll.Ready 7)

/-! ## Scene rectangle normalization (`src/app.rs` lines 486-492) -/

/-- `egui::Pos2` with exact rational coordinates. -/
structure Pos2 where
  x : ℚ
  y : ℚ
deriving DecidableEq, Repr

/-- `egui::Vec2` with exact rational coordinates. -/
structure Vec2 where
  x : ℚ
  y : ℚ
deriving DecidableEq, Repr

/-- Vector negation (`-shift` in the source). -/
def Vec2.neg (v : Vec2) : Vec2 := ⟨-v.x, -v.y⟩

/-- `egui::Rect`: a min and a max corner. -/
structure Rect where
  min : Pos2
  max : Pos2
deriving DecidableEq, Repr

/-- `egui::Rect::translate`: moves both corners by the vector. -/
def Rect.translate (r : Rect) (v : Vec2) : Rect :=
  ⟨⟨r.min.x + v.x, r.min.y + v.y⟩, ⟨r.max.x + v.x, r.max.y + v.y⟩⟩

/-- `egui::Rect::width`. -/
def Rect.width (r : Rect) : ℚ := r.max.x - r.min.x

/-- `egui::Rect::height`. -/
def Rect.height (r : Rect) : ℚ := r.max.y - r.min.y

/-- The per-frame scene-rectangle normalization at the end of
`TemplateApp::update` (`src/app.rs` lines 486-492): if the min corner has a
negative x or y, translate the rect by minus
`(min.x.min(0.0), min.y.min(0.0))`. -/
def normalize_scene_rect (r : Rect) : Rect :=
  if r.min.x < 0 ∨ r.min.y < 0 then
    let shift : Vec2 := ⟨min r.min.x 0, min r.min.y 0⟩
    r.translate shift.neg
  else r

/-! ## Angular gradient painter (`src/elements.rs` lines 427-487) -/

/-- `egui::Rect::left_top`. -/
def Rect.left_top (r : Rect) : Pos2 := ⟨r.min.x, r.min.y⟩

/-- `egui::Rect::right_top`. -/
def Rect.right_top (r : Rect) : Pos2 := ⟨r.max.x, r.min.y⟩

/-- `egui::Rect::right_bottom`. -/
def Rect.right_bottom (r : Rect) : Pos2 := ⟨r.max.x, r.max.y⟩

/-- `egui::Rect::left_bottom`. -/
def Rect.left_bottom (r : Rect) : Pos2 := ⟨r.min.x, r.max.y⟩

/-- `egui::Rect::center`. -/
def Rect.center (r : Rect) : Pos2 :=
  ⟨(r.min.x + r.max.x) / 2, (r.min.y + r.max.y) / 2⟩

/-- Pointwise difference of positions (`corner - rect_center`), a vector. -/
def Pos2.sub (a b : Pos2) : Vec2 := ⟨a.x - b.x, a.y - b.y⟩

/-- `egui::Vec2::dot`. -/
def Vec2.dot (a b : Vec2) : ℚ := a.x * b.x + a.y * b.y

/-- The `corners` array of `paint_angular_gradient`
(`src/elements.rs` lines 437-442): left top, right top, right bottom,
left bottom. -/
def corners (r : Rect) : List Pos2 :=
  [r.left_top, r.right_top, r.right_bottom, r.left_bottom]

/-- `f32::EPSILON` = 2⁻²³, used by the painter to clamp intensities and to
detect a degenerate projection range. -/
def EPS : ℚ := 1 / 2 ^ 23

/-- A corner's projection onto the gradient axis:
`(corner - rect_center).dot(rot)` (`src/elements.rs` line 444). -/
def projection (rect : Rect) (rot : Vec2) (corner : Pos2) : ℚ :=
  (corner.sub rect.center).dot rot

/-- `min_proj` (`src/elements.rs` line 445): the source folds `f32::min`
over the four corner projections starting from `f32::INFINITY`, which
equals the four-way minimum. -/
def min_proj (rect : Rect) (rot : Vec2) : ℚ :=
  min (min (min (projection rect rot rect.left_top)
    (projection rect rot rect.right_top))
    (projection rect rot rect.right_bottom))
    (projection rect rot rect.left_bottom)

/-- `max_proj` (`src/elements.rs` line 446), dually a four-way maximum. -/
def max_proj (rect : Rect) (rot : Vec2) : ℚ :=
  max (max (max (projection rect rot rect.left_top)
    (projection rect rot rect.right_top))
    (projection rect rot rect.right_bottom))
    (projection rect rot rect.left_bottom)

/-- `proj_range = max_proj - min_proj` (`src/elements.rs` line 447). -/
def proj_range (rect : Rect) (rot : Vec2) : ℚ :=
  max_proj rect rot - min_proj rect rot

/-- `safe_intensity` (`src/elements.rs` line 450): both components clamped
below by `f32::EPSILON`. -/
def safe_intensity (intensity : Vec2) : Vec2 :=
  ⟨max intensity.x EPS, max intensity.y EPS⟩

/-- `start_blend_point = 0.5 - 0.5 / safe_intensity.x`
(`src/elements.rs` line 455). -/
def start_blend_point (intensity : Vec2) : ℚ :=
  1 / 2 - 1 / 2 / (safe_intensity intensity).x

/-- `end_blend_point = 0.5 + 0.5 / safe_intensity.y`
(`src/elements.rs` line 456). -/
def end_blend_point (intensity : Vec2) : ℚ :=
  1 / 2 + 1 / 2 / (safe_intensity intensity).y

/-- `emath::lerp` on scalars: `a + (b - a) * t`. -/
def lerp (a b t : ℚ) : ℚ := a + (b - a) * t

/-- `egui::Rgba`: a premultiplied red/green/blue/alpha quadruple. -/
structure Rgba where
  r : ℚ
  g : ℚ
  b : ℚ
  a : ℚ
deriving DecidableEq, Repr

/-- `emath::lerp` on an `Rgba` range: componentwise `start + (end - start) * t`. -/
def Rgba.lerp (s e : Rgba) (t : ℚ) : Rgba :=
  ⟨Portfolio.lerp s.r e.r t, Portfolio.lerp s.g e.g t,
   Portfolio.lerp s.b e.b t, Portfolio.lerp s.a e.a t⟩

/-- `emath::remap_clamp` restricted to an ordered source range
(`from.start ≤ from.end`): clamp outside the range, otherwise interpolate,
with the guard `if 1 ≤ t` against numerical overshoot kept from the
source. -/
def remap_clamp_ordered (x from_start from_end to_start to_end : ℚ) : ℚ :=
  if x ≤ from_start then to_start
  else if from_end ≤ x then to_end
  else
    let t := (x - from_start) / (from_end - from_start)
    if 1 ≤ t then to_end
    else lerp to_start to_end t

/-- `emath::remap_clamp`: a reversed source range swaps both ranges. -/
def remap_clamp (x from_start from_end to_start to_end : ℚ) : ℚ :=
  if from_end < from_start then
    remap_clamp_ordered x from_end from_start to_end to_start
  else remap_clamp_ordered x from_start from_end to_start to_end

/-- The interpolation factor `t` for a corner (`src/elements.rs` lines
465-469): `0.5` when the projection range is degenerate
(`proj_range.abs() < f32::EPSILON`), otherwise the projection normalized
into `[0, 1]`. -/
def corner_t (rect : Rect) (rot : Vec2) (corner : Pos2) : ℚ :=
  if |proj_range rect rot| < EPS then 1 / 2
  else (projection rect rot corner - min_proj rect rot) / proj_range rect rot

/-- The remapped blend factor for a corner (`src/elements.rs` line 472). -/
def corner_blend_factor (rect : Rect) (rot intensity : Vec2) (corner : Pos2) : ℚ :=
  remap_clamp (corner_t rect rot corner)
    (start_blend_point intensity) (end_blend_point intensity) 0 1

/-- The color assigned to a corner vertex (`src/elements.rs` line 475):
the linear interpolation of the two gradient colors at the corner's blend
factor. -/
def gradient_corner_color (rect : Rect) (start_color end_color : Rgba)
    (rot intensity : Vec2) (corner : Pos2) : Rgba :=
  Rgba.lerp start_color end_color (corner_blend_factor rect rot intensity corner)

/-- The four mesh vertices pushed by `paint_angular_gradient`
(`src/elements.rs` lines 463-482), as corner-position/color pairs.  The
source derives the gradient axis from the angle as
`rot = Vec2::new(angle_rad.sin(), -angle_rad.cos())` (line 435); the axis
`rot` is taken as the parameter here since the claims do not depend on the
trigonometric reparametrization. -/
def paint_angular_gradient (rect : Rect) (start_color end_color : Rgba)
    (rot intensity : Vec2) : List (Pos2 × Rgba) :=
  (corners rect).map fun corner =>
    (corner, gradient_corner_color rect start_color end_color rot intensity corner)

/-- Opaque black as premultiplied `Rgba`. -/
def black : Rgba := ⟨0, 0, 0, 1⟩

/-- Opaque white as premultiplied `Rgba`. -/
def white : Rgba := ⟨1, 1, 1, 1⟩

/-- A rectangle with zero height, hence zero extent along the vertical
gradient axis `(0, -1)` (the source's `angle_rad = 0`). -/
def flat_rect : Rect := ⟨⟨0, 0⟩, ⟨100, 0⟩⟩

/-- A non-degenerate sample rectangle. -/
def sample_rect : Rect := ⟨⟨0, 0⟩, ⟨100, 50⟩⟩

/-! ## Hover animation bookkeeping (`src/app.rs` lines 307-333) -/

/-- `enum AnimateDirection { In, Out }` from `src/app.rs`; the spec names
these states `Entering` and `Leaving`. -/
inductive AnimateDirection where
  | In
  | Out
deriving DecidableEq, Repr

/-- Modelled from the spec: `egui::Context::animate_value_with_time` is
host-toolkit code not present in this repository.  Per the spec it animates
the stored value continuously toward the target over the given duration, so
one frame of duration `dt` moves the value toward the target by at most
`dt / duration` of the unit range, stopping at the target; a non-positive
duration jumps to the target. -/
def animate_value_with_time (current target dt duration : ℚ) : ℚ :=
  if duration ≤ 0 then target
  else if |target - current| ≤ dt / duration then target
  else if current < target then current + dt / duration
  else current - dt / duration

/-- One frame of the hover animation bookkeeping for an animated widget
(`src/app.rs` lines 319-333): while hovered, an `Out` direction or progress
below 1 switches the entry to `In` and animates toward 1 over 0.2 time
units; while not hovered, an `In` direction or positive progress switches
the entry to `Out` and animates toward 0 over the same duration. -/
def hover_step (hovered : Bool) (dt : ℚ) (s : AnimateDirection × ℚ) :
    AnimateDirection × ℚ :=
  if hovered then
    if s.1 = AnimateDirection.Out ∨ s.2 < 1 then
      (AnimateDirection.In, animate_value_with_time s.2 1 dt (1 / 5))
    else s
  else
    if s.1 = AnimateDirection.In ∨ s.2 > 0 then
      (AnimateDirection.Out, animate_value_with_time s.2 0 dt (1 / 5))
    else s

/-- The animation entry after a sequence of frames, each a
(hovered, frame-duration) pair, starting from the `or_insert` initial entry
`(AnimateDirection::In, 0.0)` (`src/app.rs` lines 307-311). -/
def run_hover_frames (frames : List (Bool × ℚ)) : AnimateDirection × ℚ :=
  frames.foldl (fun s f => hover_step f.1 f.2 s) (AnimateDirection.In, 0)

/-! ## Static data construction (`src/data.rs` lines 44-55) -/

/-- `struct Data` from `src/data.rs`, with the texture handle type abstract
as `H`. -/
structure Data (H : Type) where
  skills : List Skill
  project_highlights : List (ProjectHighlight H)
deriving DecidableEq, Repr

/-- `Data::default` from `src/data.rs` lines 44-50: parse the embedded
`data.toml` text with the external `toml` crate's `from_str` and `expect`
the result.  The parser belongs to the external crate, so it is the
function argument `from_str` here; `expect`'s process-terminating panic on
a malformed configuration is embedded as `Except.error` carrying the panic
message, and `Data::new` (lines 53-55) just delegates to this. -/
def Data.construct {H : Type} (from_str : String → Option (Data H))
    (raw : String) : Except String (Data H) :=
  match from_str raw with
  | some d => Except.ok d
  | none => Except.error "Failed to parse data.toml"

/-! ## Theme style builders (`src/app.rs` lines 55-242) -/

/-- `egui::Color32`: an sRGBA quadruple of 8-bit channels. -/
structure Color32 where
  r : ℕ
  g : ℕ
  b : ℕ
  a : ℕ
deriving DecidableEq, Repr

/-- `Color32::from_rgb`: opaque color. -/
def Color32.from_rgb (r g b : ℕ) : Color32 := ⟨r, g, b, 255⟩

/-- `Color32::from_gray`. -/
def Color32.from_gray (l : ℕ) : Color32 := ⟨l, l, l, 255⟩

/-- `Color32::from_black_alpha` (premultiplied). -/
def Color32.from_black_alpha (a : ℕ) : Color32 := ⟨0, 0, 0, a⟩

/-- `Color32::WHITE`. -/
def Color32.WHITE : Color32 := ⟨255, 255, 255, 255⟩

/-- `egui::Stroke`: a width and a color. -/
structure Stroke where
  width : ℚ
  color : Color32
deriving DecidableEq, Repr

/-- `egui::style::WidgetVisuals`, with the fields in the order the source
literals list them; `corner_radius` holds the argument of
`CornerRadius::same`. -/
structure WidgetVisuals where
  bg_fill : Color32
  bg_stroke : Stroke
  fg_stroke : Stroke
  corner_radius : ℕ
  weak_bg_fill : Color32
  expansion : ℚ
deriving DecidableEq, Repr

/-- `egui::style::Widgets`: one `WidgetVisuals` per interaction state.
`open_state` is the source's `open` field (a Lean keyword). -/
structure Widgets where
  noninteractive : WidgetVisuals
  inactive : WidgetVisuals
  hovered : WidgetVisuals
  active : WidgetVisuals
  open_state : WidgetVisuals
deriving DecidableEq, Repr

/-- `egui::style::Selection`. -/
structure Selection where
  bg_fill : Color32
  stroke : Stroke
deriving DecidableEq, Repr

/-- `egui::Shadow`. -/
structure Shadow where
  offset : ℤ × ℤ
  blur : ℕ
  spread : ℕ
  color : Color32
deriving DecidableEq, Repr

/-- The fields of `egui::style::Visuals` that the theme builders assign
(`src/app.rs` lines 77-139 and 172-234), plus `dark_mode`, whose value
comes from the wholesale `Visuals::dark()` / `Visuals::light()` assignment.
The remaining `Visuals` fields are likewise replaced wholesale by those
constants, so they never depend on the context and are not modeled. -/
structure Visuals where
  dark_mode : Bool
  extreme_bg_color : Color32
  override_text_color : Option Color32
  widgets : Widgets
  selection : Selection
  window_corner_radius : ℕ
  window_shadow : Shadow
  window_fill : Color32
  window_stroke : Stroke
  panel_fill : Color32
deriving DecidableEq, Repr

/-- `egui::FontFamily`. -/
inductive FontFamily where
  | Proportional
  | Monospace
deriving DecidableEq, Repr

/-- `egui::FontId`: a size and a family. -/
structure FontId where
  size : ℚ
  family : FontFamily
deriving DecidableEq, Repr

/-- The five text-style entries assigned by both theme builders. -/
structure TextStyles where
  heading : FontId
  body : FontId
  monospace : FontId
  button : FontId
  small : FontId
deriving DecidableEq, Repr

/-- `egui::Margin` (four `i8` sides). -/
structure Margin where
  left : ℤ
  right : ℤ
  top : ℤ
  bottom : ℤ
deriving DecidableEq, Repr

/-- `egui::Margin::same`. -/
def Margin.same (v : ℤ) : Margin := ⟨v, v, v, v⟩

/-- The fields of `egui::style::Spacing` the theme builders touch
(`window_margin`, `button_padding`), plus `item_spacing`, representative of
the many `Spacing` fields the builders leave untouched (the source even
has the `item_spacing` assignment commented out, lines 142 and 237). -/
structure Spacing where
  item_spacing : Vec2
  window_margin : Margin
  button_padding : Vec2
deriving DecidableEq, Repr

/-- The fields of `egui::Style` relevant to the theme builders: the builders
assign `text_styles`, `visuals` and two `spacing` fields;
`spacing.item_spacing` and `animation_time` stand for the `Style` fields
(spacing remainder, interaction, animation time, wrap modes, …) that the
builders inherit from `(*ctx.style()).clone()`. -/
structure Style where
  text_styles : TextStyles
  spacing : Spacing
  visuals : Visuals
  animation_time : ℚ
deriving DecidableEq, Repr

/-- The text styles both builders install (`src/app.rs` lines 64-71 and
158-165): Heading 22, Body 18, Monospace 16, Button 18, Small 14. -/
def theme_text_styles : TextStyles :=
  { heading := ⟨22, FontFamily.Proportional⟩
    body := ⟨18, FontFamily.Proportional⟩
    monospace := ⟨16, FontFamily.Monospace⟩
    button := ⟨18, FontFamily.Proportional⟩
    small := ⟨14, FontFamily.Proportional⟩ }

/-- The visuals value built by `get_dark_theme_style`
(`src/app.rs` lines 73-139): `Visuals::dark()` (contributing
`dark_mode = true`) with every modeled field then assigned from the listed
literals; `primary_bg_color = from_rgb(16, 17, 18)`. -/
def dark_visuals : Visuals :=
  { dark_mode := true
    extreme_bg_color := Color32.from_rgb 16 17 18
    override_text_color := some (Color32.from_rgb 240 235 216)
    widgets :=
      { noninteractive :=
          { bg_fill := Color32.from_rgb 16 17 18
            bg_stroke := ⟨1, Color32.from_gray 60⟩
            fg_stroke := ⟨1, Color32.from_rgb 240 235 216⟩
            corner_radius := 4
            weak_bg_fill := Color32.from_gray 32
            expansion := 0 }
        inactive :=
          { bg_fill := Color32.from_rgb 19 41 61
            bg_stroke := ⟨1, Color32.from_rgb 22 50 79⟩
            fg_stroke := ⟨1, Color32.from_rgb 240 235 216⟩
            corner_radius := 4
            weak_bg_fill := Color32.from_gray 32
            expansion := 0 }
        hovered :=
          { bg_fill := Color32.from_rgb 50 50 50
            bg_stroke := ⟨1, Color32.WHITE⟩
            fg_stroke := ⟨1, Color32.WHITE⟩
            corner_radius := 4
            weak_bg_fill := Color32.from_gray 32
            expansion := 1 / 2 }
        active :=
          { bg_fill := Color32.from_rgb 60 60 60
            bg_stroke := ⟨1, Color32.WHITE⟩
            fg_stroke := ⟨1, Color32.from_rgb 240 235 216⟩
            corner_radius := 4
            weak_bg_fill := Color32.from_gray 32
            expansion := 2 }
        open_state :=
          { bg_fill := Color32.from_rgb 40 40 40
            bg_stroke := ⟨1, Color32.WHITE⟩
            fg_stroke := ⟨1, Color32.from_rgb 240 235 216⟩
            corner_radius := 4
            weak_bg_fill := Color32.from_gray 32
            expansion := 0 } }
    selection :=
      { bg_fill := Color32.from_rgb 75 75 75
        stroke := ⟨1, Color32.WHITE⟩ }
    window_corner_radius := 6
    window_shadow :=
      { offset := (0, 1), blur := 3, spread := 0
        color := Color32.from_black_alpha 128 }
    window_fill := Color32.from_rgb 16 17 18
    window_stroke := ⟨1, Color32.from_gray 60⟩
    panel_fill := Color32.from_rgb 16 17 18 }

/-- The visuals value built by `get_light_theme_style`
(`src/app.rs` lines 167-234): `Visuals::light()` (contributing
`dark_mode = false`) with every modeled field then assigned;
`primary_bg_color = from_rgb(202, 233, 255)`,
`secondary_bg_color = from_rgb(27, 73, 101)`. -/
def light_visuals : Visuals :=
  { dark_mode := false
    extreme_bg_color := Color32.from_rgb 202 233 255
    override_text_color := some (Color32.from_rgb 33 34 39)
    widgets :=
      { noninteractive :=
          { bg_fill := Color32.from_rgb 27 73 101
            bg_stroke := ⟨1, Color32.from_rgb 99 112 116⟩
            fg_stroke := ⟨1, Color32.from_rgb 95 168 211⟩
            corner_radius := 4
            weak_bg_fill := Color32.from_gray 32
            expansion := 0 }
        inactive :=
          { bg_fill := Color32.from_rgb 27 73 101
            bg_stroke := ⟨1, Color32.from_rgb 99 112 116⟩
            fg_stroke := ⟨1, Color32.from_rgb 33 34 39⟩
            corner_radius := 4
            weak_bg_fill := Color32.from_rgb 190 233 232
            expansion := 0 }
        hovered :=
          { bg_fill := Color32.from_rgb 170 185 207
            bg_stroke := ⟨1, Color32.from_rgb 99 112 116⟩
            fg_stroke := ⟨1, Color32.from_rgb 33 34 39⟩
            corner_radius := 4
            weak_bg_fill := Color32.from_rgb 139 166 169
            expansion := 1 / 2 }
        active :=
          { bg_fill := Color32.from_rgb 60 60 60
            bg_stroke := ⟨1, Color32.from_rgb 99 112 116⟩
            fg_stroke := ⟨1, Color32.from_rgb 33 34 39⟩
            corner_radius := 4
            weak_bg_fill := Color32.from_rgb 139 166 169
            expansion := 2 }
        open_state :=
          { bg_fill := Color32.from_rgb 40 40 40
            bg_stroke := ⟨1, Color32.from_rgb 99 112 116⟩
            fg_stroke := ⟨1, Color32.from_rgb 33 34 39⟩
            corner_radius := 4
            weak_bg_fill := Color32.from_gray 32
            expansion := 0 } }
    selection :=
      { bg_fill := Color32.from_rgb 99 112 116
        stroke := ⟨1, Color32.from_rgb 255 255 255⟩ }
    window_corner_radius := 6
    window_shadow :=
      { offset := (0, 1), blur := 3, spread := 0
        color := Color32.from_black_alpha 128 }
    window_fill := Color32.from_rgb 122 156 198
    window_stroke := ⟨1, Color32.from_gray 60⟩
    panel_fill := Color32.from_rgb 202 233 255 }

/-- `TemplateApp::get_dark_theme_style` (`src/app.rs` lines 55-147): starts
from `(*ctx.style()).clone()` (the argument), replaces the text styles and
the visuals, and assigns `spacing.window_margin` and
`spacing.button_padding`; everything else is inherited from the context's
current style. -/
def get_dark_theme_style (ctx_style : Style) : Style :=
  { ctx_style with
    text_styles := theme_text_styles
    visuals := dark_visuals
    spacing := { ctx_style.spacing with
      window_margin := Margin.same 4
      button_padding := ⟨2, 2⟩ } }

/-- `TemplateApp::get_light_theme_style` (`src/app.rs` lines 149-242),
structured exactly like the dark builder. -/
def get_light_theme_style (ctx_style : Style) : Style :=
  { ctx_style with
    text_styles := theme_text_styles
    visuals := light_visuals
    spacing := { ctx_style.spacing with
      window_margin := Margin.same 4
      button_padding := ⟨2, 2⟩ } }

/-- A concrete context style used to instantiate the builders. -/
def base_style : Style :=
  { text_styles := theme_text_styles
    spacing := { item_spacing := ⟨8, 6⟩, window_margin := Margin.same 6
                 button_padding := ⟨4, 1⟩ }
    visuals := dark_visuals
    animation_time := 1 / 12 }

/-! ## Underlined button builders (`src/elements.rs` lines 14-212) -/

/-- `egui::Vec2::ZERO`. -/
def Vec2.ZERO : Vec2 := ⟨0, 0⟩

/-- `egui::Vec2::splat`. -/
def Vec2.splat (v : ℚ) : Vec2 := ⟨v, v⟩

/-- `struct ButtonWithUnderline` from `src/elements.rs` lines 14-27, minus
the `layout: AtomLayout` field (host-toolkit widget content that carries no
data the builder claims depend on). -/
structure ButtonWithUnderline where
  color : Color32
  underline_color : Option Color32
  fill : Option Color32
  stroke : Option Stroke
  frame : Option Bool
  frame_when_inactive : Bool
  min_size : Vec2
  corner_radius : Option ℕ
  selected : Bool
  inset : Vec2
  hover_inset : Vec2
deriving DecidableEq, Repr

/-- `ButtonWithUnderline::new` (`src/elements.rs` lines 30-45): note the
`hover_inset` default sentinel `Vec2::splat(-2.0)`. -/
def ButtonWithUnderline.new : ButtonWithUnderline :=
  { fill := none
    stroke := none
    frame := none
    frame_when_inactive := true
    min_size := Vec2.ZERO
    corner_radius := none
    selected := false
    color := Color32.from_black_alpha 0
    underline_color := none
    inset := Vec2.ZERO
    hover_inset := Vec2.splat (-2) }

/-- `ButtonWithUnderline::inset` (`src/elements.rs` lines 196-205): sets
`inset`, and if `hover_inset` still equals the sentinel `splat(-2.0)`,
also sets `hover_inset` to the new inset.  Named with a prime because the
structure field is already called `inset`. -/
def ButtonWithUnderline.inset' (b : ButtonWithUnderline) (v : Vec2) :
    ButtonWithUnderline :=
  let b1 := { b with inset := v }
  if b1.hover_inset = Vec2.splat (-2) then { b1 with hover_inset := b1.inset }
  else b1

/-- `ButtonWithUnderline::hover_inset` (`src/elements.rs` lines 207-212). -/
def ButtonWithUnderline.hover_inset' (b : ButtonWithUnderline) (v : Vec2) :
    ButtonWithUnderline :=
  { b with hover_inset := v }

end Portfolio

namespace Portfolio

/-- The three mutually exclusive branches of `classify`. -/
lemma classify_cases (w : ℚ) :
    (w < 768 ∧ classify w = ScreenSize.Small) ∨
    (768 ≤ w ∧ w < 1028 ∧ classify w = ScreenSize.Medium) ∨
    (1028 ≤ w ∧ classify w = ScreenSize.Large) := by
  unfold classify
  by_cases h1 : w < 768
  · exact Or.inl ⟨h1, by simp [h1]⟩
  · by_cases h2 : w < 1028
    · exact Or.inr (Or.inl ⟨le_of_not_lt h1, h2, by simp [h1, h2]⟩)
    · exact Or.inr (Or.inr ⟨le_of_not_lt h2, by simp [h1, h2]⟩)

/-- C1: for every viewport width `w`, `classify w` is `Small` iff `w < 768`,
`Medium` iff `768 ≤ w < 1028` and `Large` iff `1028 ≤ w`; the numeric size
class is monotone non-decreasing in the width; and the navigation panel is
placed at the bottom exactly for `Small` and at the top for `Medium` and
`Large`. -/
theorem classifier_bounds_monotone_panel (w w' : ℚ) (hww' : w ≤ w') :
    (classify w = ScreenSize.Small ↔ w < 768) ∧
    (classify w = ScreenSize.Medium ↔ 768 ≤ w ∧ w < 1028) ∧
    (classify w = ScreenSize.Large ↔ 1028 ≤ w) ∧
    (classify w).to_u8 ≤ (classify w').to_u8 ∧
    panel_location ScreenSize.Small = TopBottomSide.Bottom ∧
    panel_location ScreenSize.Medium = TopBottomSide.Top ∧
    panel_location ScreenSize.Large = TopBottomSide.Top := by
  refine ⟨?_, ?_, ?_, ?_, rfl, rfl, rfl⟩
  · constructor
    · intro hs
      rcases classify_cases w with ⟨h, _⟩ | ⟨_, _, hc⟩ | ⟨_, hc⟩ <;>
        first | exact h | (rw [hs] at hc; cases hc)
    · intro h
      unfold classify
      simp [h]
  · constructor
    · intro hs
      rcases classify_cases w with ⟨_, hc⟩ | ⟨ha, hb, _⟩ | ⟨_, hc⟩ <;>
        first | exact ⟨ha, hb⟩ | (rw [hs] at hc; cases hc)
    · intro h
      unfold classify
      rw [if_neg (not_lt.mpr h.1), if_pos h.2]
  · constructor
    · intro hs
      rcases classify_cases w with ⟨_, hc⟩ | ⟨_, _, hc⟩ | ⟨h, _⟩ <;>
        first | exact h | (rw [hs] at hc; cases hc)
    · intro h
      unfold classify
      rw [if_neg (by linarith : ¬ w < 768), if_neg (not_lt.mpr h)]
  · rcases classify_cases w with ⟨h, hc⟩ | ⟨ha, hb, hc⟩ | ⟨h, hc⟩ <;>
      rcases classify_cases w' with ⟨h', hc'⟩ | ⟨ha', hb', hc'⟩ | ⟨h', hc'⟩ <;>
      rw [hc, hc'] <;> simp [ScreenSize.to_u8] <;> linarith

/-- Witness for C1 at the spec's example widths 500 and 900. -/
theorem classifier_bounds_monotone_panel_witness :
    (classify 500 = ScreenSize.Small ↔ (500 : ℚ) < 768) ∧
    (classify 500 = ScreenSize.Medium ↔ (768 : ℚ) ≤ 500 ∧ (500 : ℚ) < 1028) ∧
    (classify 500 = ScreenSize.Large ↔ (1028 : ℚ) ≤ 500) ∧
    (classify 500).to_u8 ≤ (classify 900).to_u8 ∧
    panel_location ScreenSize.Small = TopBottomSide.Bottom ∧
    panel_location ScreenSize.Medium = TopBottomSide.Top ∧
    panel_location ScreenSize.Large = TopBottomSide.Top :=
  classifier_bounds_monotone_panel 500 900 (by norm_num)

/-- C2: for effective width `w = rect_width * zoom`, if `w` classifies
`Small` and the zoom factor differs from `w / 768`, the step sets the zoom
factor to `w / 768` and requests a repaint; if the class is `Medium` or
`Large` the zoom factor is set to `1`; and the step is idempotent: re-running
the adjustment on the same effective width (the spec's assumption that the
effective width already includes the current zoom factor, hence is unchanged
by the zoom update) changes nothing and requests no further repaint. -/
theorem zoom_step_spec (rect_width zoom w : ℚ) (hw : w = rect_width * zoom) :
    (classify w = ScreenSize.Small → zoom ≠ w / 768 →
      zoom_step rect_width zoom = (w / 768, true)) ∧
    (classify w = ScreenSize.Medium ∨ classify w = ScreenSize.Large →
      zoom_step rect_width zoom = (1, false)) ∧
    zoom_adjust w (zoom_step rect_width zoom).1 =
      ((zoom_step rect_width zoom).1, false) := by
  have hzs : zoom_step rect_width zoom = zoom_adjust w zoom := by
    rw [zoom_step, hw]
  rw [hzs]
  refine ⟨?_, ?_, ?_⟩
  · intro hs hne
    rw [zoom_adjust, hs]
    simp [ScreenSize.to_u8, hne]
  · intro hml
    rcases hml with hm | hm <;> rw [zoom_adjust, hm] <;> simp [ScreenSize.to_u8]
  · by_cases h1 : (classify w).to_u8 = 1
    · by_cases hz : zoom = w / 768
      · simp [zoom_adjust, h1, hz]
      · simp [zoom_adjust, h1, hz]
    · simp [zoom_adjust, h1]

/-- Witness for C2 at the spec's example: rect width 500, zoom factor 1:
the width classifies `Small`, zoom is forced to `500 / 768` with a repaint,
and re-running the adjustment is a no-op. -/
theorem zoom_step_spec_witness :
    (classify 500 = ScreenSize.Small → (1 : ℚ) ≠ 500 / 768 →
      zoom_step 500 1 = (500 / 768, true)) ∧
    (classify 500 = ScreenSize.Medium ∨ classify 500 = ScreenSize.Large →
      zoom_step 500 1 = (1, false)) ∧
    zoom_adjust 500 (zoom_step 500 1).1 = ((zoom_step 500 1).1, false) :=
  zoom_step_spec 500 1 500 (by norm_num)

/-- C3: thumbnail resolution: a populated cache is returned immediately with
no load issued and no state change; with an empty cache, a `Ready` poll for
`root_url ++ thumbnail_path` caches and returns the handle, a `Pending` poll
returns `none` leaving the cache empty, and a load error returns `none`
leaving the cache empty; the cache is never invalidated, so any populated
cache survives the call and every subsequent call returns that handle. -/
theorem get_set_thumbnail_spec {H : Type} (root_url : String)
    (try_load : String → Except String (TexturePoll H)) (p : ProjectHighlight H) :
    (∀ t, p.thumbnail = some t →
      p.get_set_thumbnail root_url try_load = (some t, p, false)) ∧
    (∀ t, p.thumbnail = none →
      try_load (root_url ++ p.thumbnail_path) = Except.ok (TexturePoll.Ready t) →
      p.get_set_thumbnail root_url try_load =
        (some t, { p with thumbnail := some t }, true)) ∧
    (p.thumbnail = none →
      try_load (root_url ++ p.thumbnail_path) = Except.ok TexturePoll.Pending →
      p.get_set_thumbnail root_url try_load = (none, p, true)) ∧
    (∀ e, p.thumbnail = none →
      try_load (root_url ++ p.thumbnail_path) = Except.error e →
      p.get_set_thumbnail root_url try_load = (none, p, true)) ∧
    (∀ t, p.thumbnail = some t →
      (p.get_set_thumbnail root_url try_load).2.1.thumbnail = some t) ∧
    (∀ t, (p.get_set_thumbnail root_url try_load).1 = some t →
      (p.get_set_thumbnail root_url try_load).2.1.thumbnail = some t) := by
  refine ⟨?_, ?_, ?_, ?_, ?_, ?_⟩
  · intro t ht
    simp [ProjectHighlight.get_set_thumbnail, ht]
  · intro t ht hl
    simp [ProjectHighlight.get_set_thumbnail, ht, hl]
  · intro ht hl
    simp [ProjectHighlight.get_set_thumbnail, ht, hl]
  · intro e ht hl
    simp [ProjectHighlight.get_set_thumbnail, ht, hl]
  · intro t ht
    simp [ProjectHighlight.get_set_thumbnail, ht]
  · intro t
    unfold ProjectHighlight.get_set_thumbnail
    rcases hp : p.thumbnail with _ | t₀
    · rcases hl : try_load (root_url ++ p.thumbnail_path) with e | poll
      · simp [hl]
      · rcases poll with _ | t₁ <;> simp [hl]
    · simp only [Option.some.injEq]
      intro h
      rw [hp, h]

/-- Witness for C3, tracing the spec's poll example with concrete loaders:
a pending poll yields no handle and leaves the record unchanged; a ready
poll yields handle `7` and caches it; a call on the cached record returns
the same handle with no load issued. -/
theorem get_set_thumbnail_spec_witness :
    sample_project.get_set_thumbnail "base" pending_loader =
      (none, sample_project, true) ∧
    sample_project.get_set_thumbnail "base" ready_loader =
      (some 7, { sample_project with thumbnail := some 7 }, true) ∧
    ({ sample_project with thumbnail := some 7 } :
        ProjectHighlight ℕ).get_set_thumbnail "base" ready_loader =
      (some 7, { sample_project with thumbnail := some 7 }, false) :=
  ⟨(get_set_thumbnail_spec "base" pending_loader sample_project).2.2.1 rfl rfl,
   (get_set_thumbnail_spec "base" ready_loader sample_project).2.1 7 rfl rfl,
   (get_set_thumbnail_spec "base" ready_loader
      { sample_project with thumbnail := some 7 }).1 7 rfl⟩

/-- Evaluation of `normalize_scene_rect`: the min corner is clamped to
non-negative componentwise and the max corner is shifted by the same
amounts. -/
lemma normalize_scene_rect_eval (r : Rect) :
    normalize_scene_rect r =
      ⟨⟨max r.min.x 0, max r.min.y 0⟩,
       ⟨r.max.x - min r.min.x 0, r.max.y - min r.min.y 0⟩⟩ := by
  unfold normalize_scene_rect Rect.translate Vec2.neg
  by_cases hx : r.min.x < 0 <;> by_cases hy : r.min.y < 0
  · rw [if_pos (Or.inl hx), min_eq_left hx.le, min_eq_left hy.le,
      max_eq_right hx.le, max_eq_right hy.le]
    simp only [Rect.mk.injEq, Pos2.mk.injEq]
    exact ⟨⟨by ring, by ring⟩, by ring, by ring⟩
  · rw [if_pos (Or.inl hx), min_eq_left hx.le, min_eq_right (le_of_not_lt hy),
      max_eq_right hx.le, max_eq_left (le_of_not_lt hy)]
    simp only [Rect.mk.injEq, Pos2.mk.injEq]
    exact ⟨⟨by ring, by ring⟩, by ring, by ring⟩
  · rw [if_pos (Or.inr hy), min_eq_right (le_of_not_lt hx), min_eq_left hy.le,
      max_eq_left (le_of_not_lt hx), max_eq_right hy.le]
    simp only [Rect.mk.injEq, Pos2.mk.injEq]
    exact ⟨⟨by ring, by ring⟩, by ring, by ring⟩
  · rw [if_neg (by rintro (h | h) <;> [exact hx h; exact hy h]),
      min_eq_right (le_of_not_lt hx), min_eq_right (le_of_not_lt hy),
      max_eq_left (le_of_not_lt hx), max_eq_left (le_of_not_lt hy)]
    simp only [sub_zero]

/-- C4: the scene-rectangle normalization yields a min corner that is
component-wise non-negative, preserves width and height, is the identity on
rectangles whose min corner is already non-negative, and is idempotent. -/
theorem normalize_scene_rect_spec (r : Rect) :
    0 ≤ (normalize_scene_rect r).min.x ∧
    0 ≤ (normalize_scene_rect r).min.y ∧
    (normalize_scene_rect r).width = r.width ∧
    (normalize_scene_rect r).height = r.height ∧
    (0 ≤ r.min.x → 0 ≤ r.min.y → normalize_scene_rect r = r) ∧
    normalize_scene_rect (normalize_scene_rect r) = normalize_scene_rect r := by
  have hid : ∀ s : Rect, 0 ≤ s.min.x → 0 ≤ s.min.y → normalize_scene_rect s = s := by
    intro s h1 h2
    unfold normalize_scene_rect
    rw [if_neg (by rintro (h | h) <;> linarith)]
  refine ⟨?_, ?_, ?_, ?_, hid r, ?_⟩
  · rw [normalize_scene_rect_eval]
    exact le_max_right _ _
  · rw [normalize_scene_rect_eval]
    exact le_max_right _ _
  · rw [normalize_scene_rect_eval]
    show r.max.x - min r.min.x 0 - max r.min.x 0 = r.max.x - r.min.x
    have := min_add_max r.min.x 0
    linarith
  · rw [normalize_scene_rect_eval]
    show r.max.y - min r.min.y 0 - max r.min.y 0 = r.max.y - r.min.y
    have := min_add_max r.min.y 0
    linarith
  · rw [normalize_scene_rect_eval r]
    exact hid _ (le_max_right _ _) (le_max_right _ _)

/-- Witness for C4 at the concrete rectangle with min corner `(-5, 3)` and
max corner `(10, 7)`. -/
theorem normalize_scene_rect_spec_witness :
    0 ≤ (normalize_scene_rect ⟨⟨-5, 3⟩, ⟨10, 7⟩⟩).min.x ∧
    0 ≤ (normalize_scene_rect ⟨⟨-5, 3⟩, ⟨10, 7⟩⟩).min.y ∧
    (normalize_scene_rect ⟨⟨-5, 3⟩, ⟨10, 7⟩⟩).width = Rect.width ⟨⟨-5, 3⟩, ⟨10, 7⟩⟩ ∧
    (normalize_scene_rect ⟨⟨-5, 3⟩, ⟨10, 7⟩⟩).height = Rect.height ⟨⟨-5, 3⟩, ⟨10, 7⟩⟩ ∧
    (0 ≤ ((⟨⟨-5, 3⟩, ⟨10, 7⟩⟩ : Rect)).min.x → 0 ≤ ((⟨⟨-5, 3⟩, ⟨10, 7⟩⟩ : Rect)).min.y →
      normalize_scene_rect ⟨⟨-5, 3⟩, ⟨10, 7⟩⟩ = ⟨⟨-5, 3⟩, ⟨10, 7⟩⟩) ∧
    normalize_scene_rect (normalize_scene_rect ⟨⟨-5, 3⟩, ⟨10, 7⟩⟩) =
      normalize_scene_rect ⟨⟨-5, 3⟩, ⟨10, 7⟩⟩ :=
  normalize_scene_rect_spec ⟨⟨-5, 3⟩, ⟨10, 7⟩⟩

/-- Each corner projection lies between the folded minimum and maximum. -/
lemma projection_mem (rect : Rect) (rot : Vec2) (corner : Pos2)
    (hc : corner ∈ corners rect) :
    min_proj rect rot ≤ projection rect rot corner ∧
    projection rect rot corner ≤ max_proj rect rot := by
  unfold min_proj max_proj
  simp only [corners, List.mem_cons, List.not_mem_nil, or_false] at hc
  rcases hc with h | h | h | h <;> subst h
  · exact ⟨le_trans (min_le_left _ _) (le_trans (min_le_left _ _) (min_le_left _ _)),
      le_trans (le_max_left _ _) (le_trans (le_max_left _ _) (le_max_left _ _))⟩
  · exact ⟨le_trans (min_le_left _ _) (le_trans (min_le_left _ _) (min_le_right _ _)),
      le_trans (le_max_right _ _) (le_trans (le_max_left _ _) (le_max_left _ _))⟩
  · exact ⟨le_trans (min_le_left _ _) (min_le_right _ _),
      le_trans (le_max_right _ _) (le_max_left _ _)⟩
  · exact ⟨min_le_right _ _, le_max_right _ _⟩

/-- The projection range is non-negative. -/
lemma proj_range_nonneg (rect : Rect) (rot : Vec2) :
    0 ≤ proj_range rect rot := by
  have h := projection_mem rect rot rect.left_top (by simp [corners])
  unfold proj_range
  linarith [h.1, h.2]

/-- The normalized projection of every corner lies in `[0, 1]`. -/
lemma corner_t_mem (rect : Rect) (rot : Vec2) (corner : Pos2)
    (hc : corner ∈ corners rect) :
    0 ≤ corner_t rect rot corner ∧ corner_t rect rot corner ≤ 1 := by
  unfold corner_t
  split
  · norm_num
  · rename_i habs
    have hr0 : 0 ≤ proj_range rect rot := proj_range_nonneg rect rot
    have hrpos : 0 < proj_range rect rot := by
      rcases lt_or_eq_of_le hr0 with h | h
      · exact h
      · exact absurd (by rw [← h]; norm_num [EPS]) habs
    have hm := projection_mem rect rot corner hc
    constructor
    · exact div_nonneg (by linarith [hm.1]) hr0
    · rw [div_le_one hrpos]
      unfold proj_range
      linarith [hm.2]

/-- `remap_clamp` over the unit source and target windows is the identity
on `[0, 1]`. -/
lemma remap_clamp_unit (t : ℚ) (h0 : 0 ≤ t) (h1 : t ≤ 1) :
    remap_clamp t 0 1 0 1 = t := by
  unfold remap_clamp remap_clamp_ordered
  rw [if_neg (by norm_num)]
  by_cases ha : t ≤ 0
  · rw [if_pos ha]
    linarith
  · rw [if_neg ha]
    by_cases hb : 1 ≤ t
    · rw [if_pos hb]
      linarith
    · rw [if_neg hb]
      have ht : (t - 0) / ((1 : ℚ) - 0) = t := by norm_num
      simp only [ht]
      rw [if_neg hb]
      unfold lerp
      ring

/-- C5: for an intensity whose components are at least `f32::EPSILON` (so
the safety clamp is inert), every corner's color is the linear blend of the
two colors at the factor obtained by remapping the corner's normalized
projection through the window
`[0.5 - 0.5/intensity.x, 0.5 + 0.5/intensity.y]`; the normalized projection
always lies in `[0, 1]`; and for intensity `(1, 1)` the window is exactly
`[0, 1]` and the blend factor equals the normalized projection (a pure
linear gradient). -/
theorem gradient_blend_window_spec (rect : Rect) (rot : Vec2)
    (start_color end_color : Rgba) (intensity : Vec2)
    (hx : EPS ≤ intensity.x) (hy : EPS ≤ intensity.y)
    (corner : Pos2) (hc : corner ∈ corners rect) :
    gradient_corner_color rect start_color end_color rot intensity corner =
      Rgba.lerp start_color end_color
        (remap_clamp (corner_t rect rot corner)
          (1 / 2 - 1 / 2 / intensity.x) (1 / 2 + 1 / 2 / intensity.y) 0 1) ∧
    0 ≤ corner_t rect rot corner ∧ corner_t rect rot corner ≤ 1 ∧
    (intensity.x = 1 → intensity.y = 1 →
      start_blend_point intensity = 0 ∧ end_blend_point intensity = 1 ∧
      corner_blend_factor rect rot intensity corner = corner_t rect rot corner) := by
  have hmem := corner_t_mem rect rot corner hc
  have hsx : (safe_intensity intensity).x = intensity.x := max_eq_left hx
  have hsy : (safe_intensity intensity).y = intensity.y := max_eq_left hy
  have hsb : start_blend_point intensity = 1 / 2 - 1 / 2 / intensity.x := by
    unfold start_blend_point
    rw [hsx]
  have heb : end_blend_point intensity = 1 / 2 + 1 / 2 / intensity.y := by
    unfold end_blend_point
    rw [hsy]
  refine ⟨?_, hmem.1, hmem.2, ?_⟩
  · unfold gradient_corner_color corner_blend_factor
    rw [hsb, heb]
  · intro h1 h2
    have hsb' : start_blend_point intensity = 0 := by
      rw [hsb, h1]
      norm_num
    have heb' : end_blend_point intensity = 1 := by
      rw [heb, h2]
      norm_num
    refine ⟨hsb', heb', ?_⟩
    unfold corner_blend_factor
    rw [hsb', heb']
    exact remap_clamp_unit _ hmem.1 hmem.2

/-- Witness for C5 at the sample rectangle, vertical axis `(0, -1)`,
black-to-white colors and intensity `(1, 1)`, evaluated at the left-top
corner. -/
theorem gradient_blend_window_spec_witness :
    gradient_corner_color sample_rect black white ⟨0, -1⟩ ⟨1, 1⟩
        sample_rect.left_top =
      Rgba.lerp black white
        (remap_clamp (corner_t sample_rect ⟨0, -1⟩ sample_rect.left_top)
          (1 / 2 - 1 / 2 / (⟨1, 1⟩ : Vec2).x) (1 / 2 + 1 / 2 / (⟨1, 1⟩ : Vec2).y) 0 1) ∧
    0 ≤ corner_t sample_rect ⟨0, -1⟩ sample_rect.left_top ∧
    corner_t sample_rect ⟨0, -1⟩ sample_rect.left_top ≤ 1 ∧
    ((⟨1, 1⟩ : Vec2).x = 1 → (⟨1, 1⟩ : Vec2).y = 1 →
      start_blend_point ⟨1, 1⟩ = 0 ∧ end_blend_point ⟨1, 1⟩ = 1 ∧
      corner_blend_factor sample_rect ⟨0, -1⟩ ⟨1, 1⟩ sample_rect.left_top =
        corner_t sample_rect ⟨0, -1⟩ sample_rect.left_top) :=
  gradient_blend_window_spec sample_rect ⟨0, -1⟩ black white ⟨1, 1⟩
    (by norm_num [EPS]) (by norm_num [EPS]) sample_rect.left_top
    (by simp [corners])

/-- C6 counterexample: on the zero-height rectangle `flat_rect` with the
vertical gradient axis and the asymmetric intensity `(1, 2)`, a corner is
painted the blend at factor `2/3`, not the 50% mid-color blend of the two
colors, refuting the claim that every intensity yields the mid-color in the
degenerate case. -/
theorem gradient_degenerate_not_mid :
    gradient_corner_color flat_rect black white ⟨0, -1⟩ ⟨1, 2⟩
        flat_rect.left_top =
      Rgba.lerp black white (2 / 3) ∧
    gradient_corner_color flat_rect black white ⟨0, -1⟩ ⟨1, 2⟩
        flat_rect.left_top ≠
      Rgba.lerp black white (1 / 2) := by
  have hdeg : proj_range flat_rect ⟨0, -1⟩ = 0 := by
    norm_num [proj_range, min_proj, max_proj, projection, Pos2.sub, Vec2.dot,
      Rect.center, Rect.left_top, Rect.right_top, Rect.right_bottom,
      Rect.left_bottom, flat_rect]
  have ht : corner_t flat_rect ⟨0, -1⟩ flat_rect.left_top = 1 / 2 := by
    unfold corner_t
    rw [hdeg, if_pos (by norm_num [EPS])]
  have hblend : corner_blend_factor flat_rect ⟨0, -1⟩ ⟨1, 2⟩
      flat_rect.left_top = 2 / 3 := by
    unfold corner_blend_factor
    rw [ht]
    norm_num [remap_clamp, remap_clamp_ordered, start_blend_point,
      end_blend_point, safe_intensity, EPS, max_def, lerp]
  constructor
  · unfold gradient_corner_color
    rw [hblend]
  · unfold gradient_corner_color
    rw [hblend]
    intro h
    have hr := congrArg Rgba.r h
    norm_num [Rgba.lerp, lerp, black, white] at hr

/-- C6 as amended: in the degenerate case the painter does paint all four
corners one solid color, namely the blend of the two colors at factor
`intensity.y / (intensity.x + intensity.y)`; this is the 50% mid-color
exactly when the two intensity components are equal. -/
theorem gradient_degenerate_solid (rect : Rect) (rot : Vec2)
    (start_color end_color : Rgba) (intensity : Vec2)
    (hx : EPS ≤ intensity.x) (hy : EPS ≤ intensity.y)
    (hdeg : proj_range rect rot = 0) :
    (∀ corner ∈ corners rect,
      gradient_corner_color rect start_color end_color rot intensity corner =
        Rgba.lerp start_color end_color
          (intensity.y / (intensity.x + intensity.y))) ∧
    (intensity.x = intensity.y →
      ∀ corner ∈ corners rect,
        gradient_corner_color rect start_color end_color rot intensity corner =
          Rgba.lerp start_color end_color (1 / 2)) := by
  have heps : (0 : ℚ) < EPS := by norm_num [EPS]
  have hix : 0 < intensity.x := lt_of_lt_of_le heps hx
  have hiy : 0 < intensity.y := lt_of_lt_of_le heps hy
  have ht : ∀ corner, corner_t rect rot corner = 1 / 2 := by
    intro corner
    unfold corner_t
    rw [if_pos]
    rw [hdeg]
    simpa using heps
  have hsb : start_blend_point intensity = 1 / 2 - 1 / 2 / intensity.x := by
    unfold start_blend_point safe_intensity
    rw [max_eq_left hx]
  have heb : end_blend_point intensity = 1 / 2 + 1 / 2 / intensity.y := by
    unfold end_blend_point safe_intensity
    rw [max_eq_left hy]
  have hax : 0 < 1 / 2 / intensity.x := by positivity
  have hay : 0 < 1 / 2 / intensity.y := by positivity
  have hblend : ∀ corner,
      corner_blend_factor rect rot intensity corner =
        intensity.y / (intensity.x + intensity.y) := by
    intro corner
    unfold corner_blend_factor
    rw [ht, hsb, heb]
    unfold remap_clamp remap_clamp_ordered
    rw [if_neg (not_lt.mpr (by linarith))]
    rw [if_neg (not_le.mpr (by linarith))]
    rw [if_neg (not_le.mpr (by linarith))]
    have hnum : (1 : ℚ) / 2 - (1 / 2 - 1 / 2 / intensity.x) = 1 / 2 / intensity.x := by
      ring
    have hden : (1 / 2 + 1 / 2 / intensity.y) - (1 / 2 - 1 / 2 / intensity.x) =
        1 / 2 / intensity.x + 1 / 2 / intensity.y := by
      ring
    simp only [hnum, hden]
    have hdenpos : 0 < 1 / 2 / intensity.x + 1 / 2 / intensity.y := by linarith
    have hfrac : 1 / 2 / intensity.x / (1 / 2 / intensity.x + 1 / 2 / intensity.y) =
        intensity.y / (intensity.x + intensity.y) := by
      rw [div_eq_div_iff hdenpos.ne'
        (by positivity : (0 : ℚ) < intensity.x + intensity.y).ne']
      field_simp
      ring
    rw [if_neg (not_le.mpr ((div_lt_one hdenpos).mpr (by linarith)))]
    unfold lerp
    rw [hfrac]
    ring
  constructor
  · intro corner _
    unfold gradient_corner_color
    rw [hblend]
  · intro hxy corner _
    unfold gradient_corner_color
    rw [hblend, hxy]
    have : intensity.y / (intensity.y + intensity.y) = 1 / 2 := by
      rw [div_eq_div_iff
        (by positivity : (0 : ℚ) < intensity.y + intensity.y).ne'
        (by norm_num : ((2 : ℚ) ≠ 0))]
      ring
    rw [this]

/-- Witness for C6's amended statement: on the zero-height rectangle with
the vertical axis and the symmetric intensity `(1, 1)`, the left-top corner
is painted the 50% mid-color. -/
theorem gradient_degenerate_solid_witness :
    gradient_corner_color flat_rect black white ⟨0, -1⟩ ⟨1, 1⟩
        flat_rect.left_top =
      Rgba.lerp black white (1 / 2) :=
  (gradient_degenerate_solid flat_rect ⟨0, -1⟩ black white ⟨1, 1⟩
      (by norm_num [EPS]) (by norm_num [EPS])
      (by
        norm_num [proj_range, min_proj, max_proj, projection, Pos2.sub,
          Vec2.dot, Rect.center, Rect.left_top, Rect.right_top,
          Rect.right_bottom, Rect.left_bottom, flat_rect])).2
    rfl flat_rect.left_top (by simp [corners])

/-- `hover_step` with the hovered flag set, unfolded. -/
lemma hover_step_true (dt : ℚ) (s : AnimateDirection × ℚ) :
    hover_step true dt s =
      if s.1 = AnimateDirection.Out ∨ s.2 < 1 then
        (AnimateDirection.In, animate_value_with_time s.2 1 dt (1 / 5))
      else s := rfl

/-- `hover_step` with the hovered flag clear, unfolded. -/
lemma hover_step_false (dt : ℚ) (s : AnimateDirection × ℚ) :
    hover_step false dt s =
      if s.1 = AnimateDirection.In ∨ s.2 > 0 then
        (AnimateDirection.Out, animate_value_with_time s.2 0 dt (1 / 5))
      else s := rfl

/-- The animated value stays between the current value and the target for a
non-negative frame duration. -/
lemma animate_value_between (current target dt duration : ℚ) (hdt : 0 ≤ dt) :
    min current target ≤ animate_value_with_time current target dt duration ∧
    animate_value_with_time current target dt duration ≤ max current target := by
  unfold animate_value_with_time
  by_cases hdur : duration ≤ 0
  · rw [if_pos hdur]
    exact ⟨min_le_right _ _, le_max_right _ _⟩
  · rw [if_neg hdur]
    have hdurpos : 0 < duration := lt_of_not_le hdur
    have hstep : 0 ≤ dt / duration := div_nonneg hdt hdurpos.le
    by_cases habs : |target - current| ≤ dt / duration
    · rw [if_pos habs]
      exact ⟨min_le_right _ _, le_max_right _ _⟩
    · rw [if_neg habs]
      have habs' : dt / duration < |target - current| := lt_of_not_le habs
      by_cases hlt : current < target
      · rw [if_pos hlt]
        have hd : dt / duration < target - current := by
          rwa [abs_of_pos (by linarith : (0 : ℚ) < target - current)] at habs'
        exact ⟨le_trans (min_le_left _ _) (by linarith),
          le_trans (by linarith) (le_max_right _ _)⟩
      · rw [if_neg hlt]
        have hge : target ≤ current := le_of_not_lt hlt
        have hd : dt / duration < current - target := by
          rw [abs_of_nonpos (by linarith : target - current ≤ 0)] at habs'
          linarith
        exact ⟨le_trans (min_le_right _ _) (by linarith),
          le_trans (by linarith) (le_max_left _ _)⟩

/-- One hover frame keeps the progress inside `[0, 1]`. -/
lemma hover_step_bounds (hovered : Bool) (dt : ℚ) (s : AnimateDirection × ℚ)
    (hdt : 0 ≤ dt) (h0 : 0 ≤ s.2) (h1 : s.2 ≤ 1) :
    0 ≤ (hover_step hovered dt s).2 ∧ (hover_step hovered dt s).2 ≤ 1 := by
  cases hovered
  · rw [hover_step_false]
    by_cases hcond : s.1 = AnimateDirection.In ∨ s.2 > 0
    · rw [if_pos hcond]
      have hb := animate_value_between s.2 0 dt (1 / 5) hdt
      exact ⟨le_trans (le_min h0 le_rfl) hb.1,
        le_trans hb.2 (max_le h1 zero_le_one)⟩
    · rw [if_neg hcond]
      exact ⟨h0, h1⟩
  · rw [hover_step_true]
    by_cases hcond : s.1 = AnimateDirection.Out ∨ s.2 < 1
    · rw [if_pos hcond]
      have hb := animate_value_between s.2 1 dt (1 / 5) hdt
      exact ⟨le_trans (le_min h0 zero_le_one) hb.1,
        le_trans hb.2 (max_le h1 le_rfl)⟩
    · rw [if_neg hcond]
      exact ⟨h0, h1⟩

/-- The `[0, 1]` progress invariant is preserved along any frame sequence. -/
lemma foldl_hover_bounds (frames : List (Bool × ℚ)) :
    ∀ s : AnimateDirection × ℚ, (∀ f ∈ frames, 0 ≤ f.2) → 0 ≤ s.2 → s.2 ≤ 1 →
      0 ≤ (frames.foldl (fun s f => hover_step f.1 f.2 s) s).2 ∧
      (frames.foldl (fun s f => hover_step f.1 f.2 s) s).2 ≤ 1 := by
  induction frames with
  | nil =>
    intro s _ h0 h1
    exact ⟨h0, h1⟩
  | cons f fs ih =>
    intro s hdt h0 h1
    simp only [List.foldl_cons]
    have hb := hover_step_bounds f.1 f.2 s (hdt f (List.mem_cons_self f fs)) h0 h1
    exact ih _ (fun g hg => hdt g (List.mem_cons_of_mem f hg)) hb.1 hb.2

/-- C7: starting from the `or_insert` entry `(In, 0)`, after any frame
sequence with non-negative frame durations the stored progress stays in
`[0, 1]`; and each frame follows the hover rule: while hovered, an `Out`
direction or progress below 1 switches the entry to `In` animating toward 1
over 0.2 time units (otherwise the entry is unchanged); while not hovered,
an `In` direction or positive progress switches the entry to `Out`
animating toward 0 over the same duration (otherwise unchanged). -/
theorem hover_animation_spec (frames : List (Bool × ℚ))
    (hdt : ∀ f ∈ frames, 0 ≤ f.2) (dt : ℚ) (s : AnimateDirection × ℚ) :
    (0 ≤ (run_hover_frames frames).2 ∧ (run_hover_frames frames).2 ≤ 1) ∧
    (s.1 = AnimateDirection.Out ∨ s.2 < 1 →
      hover_step true dt s =
        (AnimateDirection.In, animate_value_with_time s.2 1 dt (1 / 5))) ∧
    (¬(s.1 = AnimateDirection.Out ∨ s.2 < 1) → hover_step true dt s = s) ∧
    (s.1 = AnimateDirection.In ∨ s.2 > 0 →
      hover_step false dt s =
        (AnimateDirection.Out, animate_value_with_time s.2 0 dt (1 / 5))) ∧
    (¬(s.1 = AnimateDirection.In ∨ s.2 > 0) → hover_step false dt s = s) := by
  refine ⟨?_, ?_, ?_, ?_, ?_⟩
  · exact foldl_hover_bounds frames (AnimateDirection.In, 0) hdt le_rfl zero_le_one
  · intro hcond
    rw [hover_step_true, if_pos hcond]
  · intro hcond
    rw [hover_step_true, if_neg hcond]
  · intro hcond
    rw [hover_step_false, if_pos hcond]
  · intro hcond
    rw [hover_step_false, if_neg hcond]

/-- Witness for C7 on a concrete two-frame hover-then-leave sequence and a
concrete mid-animation entry `(Out, 1/2)`. -/
theorem hover_animation_spec_witness :
    (0 ≤ (run_hover_frames [(true, 1 / 10), (false, 1 / 10)]).2 ∧
      (run_hover_frames [(true, 1 / 10), (false, 1 / 10)]).2 ≤ 1) ∧
    ((AnimateDirection.Out, (1 : ℚ) / 2).1 = AnimateDirection.Out ∨
        (AnimateDirection.Out, (1 : ℚ) / 2).2 < 1 →
      hover_step true (1 / 10) (AnimateDirection.Out, 1 / 2) =
        (AnimateDirection.In,
          animate_value_with_time ((AnimateDirection.Out, (1 : ℚ) / 2).2) 1
            (1 / 10) (1 / 5))) ∧
    (¬((AnimateDirection.Out, (1 : ℚ) / 2).1 = AnimateDirection.Out ∨
        (AnimateDirection.Out, (1 : ℚ) / 2).2 < 1) →
      hover_step true (1 / 10) (AnimateDirection.Out, 1 / 2) =
        (AnimateDirection.Out, 1 / 2)) ∧
    ((AnimateDirection.Out, (1 : ℚ) / 2).1 = AnimateDirection.In ∨
        (AnimateDirection.Out, (1 : ℚ) / 2).2 > 0 →
      hover_step false (1 / 10) (AnimateDirection.Out, 1 / 2) =
        (AnimateDirection.Out,
          animate_value_with_time ((AnimateDirection.Out, (1 : ℚ) / 2).2) 0
            (1 / 10) (1 / 5))) ∧
    (¬((AnimateDirection.Out, (1 : ℚ) / 2).1 = AnimateDirection.In ∨
        (AnimateDirection.Out, (1 : ℚ) / 2).2 > 0) →
      hover_step false (1 / 10) (AnimateDirection.Out, 1 / 2) =
        (AnimateDirection.Out, 1 / 2)) :=
  hover_animation_spec [(true, 1 / 10), (false, 1 / 10)]
    (by
      intro f hf
      simp only [List.mem_cons, List.not_mem_nil, or_false] at hf
      rcases hf with h | h <;> subst h <;> norm_num)
    (1 / 10) (AnimateDirection.Out, 1 / 2)

/-- C8: constructing the data store is all-or-nothing: for every parser
outcome on every configuration text, the construction returns exactly the
fully parsed `Data` when parsing succeeds, and aborts (the embedded
`expect` panic) with no `Data` value at all when parsing fails. -/
theorem data_construct_all_or_nothing {H : Type}
    (from_str : String → Option (Data H)) (raw : String) :
    (∀ d, Data.construct from_str raw = Except.ok d ↔ from_str raw = some d) ∧
    (Data.construct from_str raw = Except.error "Failed to parse data.toml" ↔
      from_str raw = none) := by
  rcases h : from_str raw with _ | d <;>
    simp [Data.construct, h]

/-- C9 counterexample: the theme style builders do depend on the rendering
context: two contexts whose current styles differ in an untouched field
(here `animation_time`) produce different style records, for the dark and
the light builder alike. -/
theorem theme_style_context_dependent :
    get_dark_theme_style { base_style with animation_time := 0 } ≠
      get_dark_theme_style { base_style with animation_time := 1 } ∧
    get_light_theme_style { base_style with animation_time := 0 } ≠
      get_light_theme_style { base_style with animation_time := 1 } := by
  constructor <;>
    · intro h
      have ha := congrArg Style.animation_time h
      simp [get_dark_theme_style, get_light_theme_style] at ha

/-- C9 as amended: each builder is a deterministic function of the
context's current style that installs the fixed literal text styles,
visuals, window margin and button padding — identically for every context —
while inheriting the remaining style fields (modeled by
`spacing.item_spacing` and `animation_time`) from the context's current
style, on which the produced record therefore does depend. -/
theorem theme_style_builders_spec (s : Style) :
    (get_dark_theme_style s).text_styles = theme_text_styles ∧
    (get_dark_theme_style s).visuals = dark_visuals ∧
    (get_dark_theme_style s).spacing.window_margin = Margin.same 4 ∧
    (get_dark_theme_style s).spacing.button_padding = ⟨2, 2⟩ ∧
    (get_dark_theme_style s).spacing.item_spacing = s.spacing.item_spacing ∧
    (get_dark_theme_style s).animation_time = s.animation_time ∧
    (get_light_theme_style s).text_styles = theme_text_styles ∧
    (get_light_theme_style s).visuals = light_visuals ∧
    (get_light_theme_style s).spacing.window_margin = Margin.same 4 ∧
    (get_light_theme_style s).spacing.button_padding = ⟨2, 2⟩ ∧
    (get_light_theme_style s).spacing.item_spacing = s.spacing.item_spacing ∧
    (get_light_theme_style s).animation_time = s.animation_time :=
  ⟨rfl, rfl, rfl, rfl, rfl, rfl, rfl, rfl, rfl, rfl, rfl, rfl⟩

/-- C10: calling the `inset` builder while the hover inset still equals the
sentinel `(-2, -2)` also sets the hover inset; a hover inset explicitly set
to the sentinel before `inset(v)` is silently overwritten with `v`, so the
two builders do not commute in that case, while a hover inset set to any
non-sentinel value before `inset(v)` is preserved. -/
theorem inset_builder_spec (b : ButtonWithUnderline) (v h : Vec2)
    (hv : v ≠ Vec2.splat (-2)) (hh : h ≠ Vec2.splat (-2)) :
    (b.hover_inset = Vec2.splat (-2) →
      (b.inset' v).inset = v ∧ (b.inset' v).hover_inset = v) ∧
    ((b.hover_inset' (Vec2.splat (-2))).inset' v).hover_inset = v ∧
    ((b.hover_inset' h).inset' v).hover_inset = h ∧
    (ButtonWithUnderline.new.hover_inset' (Vec2.splat (-2))).inset' v ≠
      (ButtonWithUnderline.new.inset' v).hover_inset' (Vec2.splat (-2)) := by
  refine ⟨?_, ?_, ?_, ?_⟩
  · intro hb
    unfold ButtonWithUnderline.inset'
    rw [if_pos (by simpa using hb)]
    exact ⟨rfl, rfl⟩
  · unfold ButtonWithUnderline.inset' ButtonWithUnderline.hover_inset'
    rw [if_pos rfl]
  · unfold ButtonWithUnderline.inset' ButtonWithUnderline.hover_inset'
    rw [if_neg (by simpa using hh)]
  · intro heq
    have hcontra := congrArg ButtonWithUnderline.hover_inset heq
    unfold ButtonWithUnderline.inset' ButtonWithUnderline.hover_inset'
      ButtonWithUnderline.new at hcontra
    rw [if_pos rfl] at hcontra
    simp at hcontra
    exact hv hcontra

/-- Witness for C10 at the fresh button with insets `(3, 4)` and `(5, 6)`. -/
theorem inset_builder_spec_witness :
    (ButtonWithUnderline.new.hover_inset = Vec2.splat (-2) →
      (ButtonWithUnderline.new.inset' ⟨3, 4⟩).inset = ⟨3, 4⟩ ∧
      (ButtonWithUnderline.new.inset' ⟨3, 4⟩).hover_inset = ⟨3, 4⟩) ∧
    ((ButtonWithUnderline.new.hover_inset' (Vec2.splat (-2))).inset'
        ⟨3, 4⟩).hover_inset = ⟨3, 4⟩ ∧
    ((ButtonWithUnderline.new.hover_inset' ⟨5, 6⟩).inset'
        ⟨3, 4⟩).hover_inset = ⟨5, 6⟩ ∧
    (ButtonWithUnderline.new.hover_inset' (Vec2.splat (-2))).inset' ⟨3, 4⟩ ≠
      (ButtonWithUnderline.new.inset' ⟨3, 4⟩).hover_inset'
        (Vec2.splat (-2)) :=
  inset_builder_spec ButtonWithUnderline.new ⟨3, 4⟩ ⟨5, 6⟩
    (by norm_num [Vec2.splat, Vec2.mk.injEq])
    (by norm_num [Vec2.splat, Vec2.mk.injEq])

end Portfolio
